import Mathlib

/-!
Shallow embedding of the orchestration core of the ai-worker-system
repository: the status state machine (src/core/state-machine.ts,
src/types/constants.ts), the task executor (TaskExecutor in
src/executors/ai-adapter.ts), the AI CLI tool adapter (AICliAdapter in
src/executors/ai-adapter.ts together with the tool-status storage
helpers), and a small-step interleaving model of the Scheduler's
polling loop (Scheduler in src/types/index.ts).

Wall-clock time (Date.now, new Date().toISOString) is modelled as an
explicit Nat parameter threaded through the operations; external
process invocations are modelled as oracle data supplied to the
functions that perform them.
-/

namespace AIWorker

/-! ## Status transition tables (src/types/constants.ts) -/

/-- CLARIFICATION_TRANSITIONS: Record<string, string[]>; a key absent
from the record yields the empty successor list (the `|| []` in
canTransition). -/
def CLARIFICATION_TRANSITIONS : String → List String
  | "pending" => ["processing", "cancelled"]
  | "processing" => ["awaiting", "confirmed", "failed"]
  | "awaiting" => ["confirmed", "cancelled", "expired"]
  | "confirmed" => []
  | "cancelled" => []
  | "expired" => []
  | "failed" => ["pending"]
  | _ => []

/-- FEEDBACK_TRANSITIONS from src/types/constants.ts. -/
def FEEDBACK_TRANSITIONS : String → List String
  | "pending" => ["analyzing", "failed"]
  | "analyzing" => ["executing", "failed"]
  | "executing" => ["completed", "failed"]
  | "completed" => []
  | "failed" => ["pending"]
  | _ => []

/-- TASK_TRANSITIONS from src/types/constants.ts. -/
def TASK_TRANSITIONS : String → List String
  | "pending" => ["in_progress"]
  | "in_progress" => ["completed", "failed"]
  | "completed" => []
  | "failed" => ["pending"]
  | _ => []

/-- The three state-machine domains ('clarification' | 'feedback' | 'task'). -/
inductive DomainType where
  | clarification
  | feedback
  | task
deriving DecidableEq

/-- canTransition from src/types/constants.ts: look up the current
status in the domain table and test membership of the new status. -/
def canTransition (currentStatus newStatus : String) (type : DomainType) : Bool :=
  let transitions :=
    match type with
    | .clarification => CLARIFICATION_TRANSITIONS
    | .feedback => FEEDBACK_TRANSITIONS
    | .task => TASK_TRANSITIONS
  (transitions currentStatus).contains newStatus

/-- isTerminalStatus from src/types/constants.ts. -/
def isTerminalStatus (status : String) : Bool :=
  ["confirmed", "cancelled", "expired", "completed"].contains status

/-- isFailedStatus from src/types/constants.ts. -/
def isFailedStatus (status : String) : Bool :=
  status == "failed" || status == "expired"

/-! ## State machine (src/core/state-machine.ts) -/

/-- One entry of the statusHistory array: {status, timestamp}.  The
ISO timestamp string is modelled as a Nat supplied by the caller. -/
structure HistoryEntry where
  status : String
  timestamp : Nat
deriving DecidableEq

/-- The StateMachine<T> class state: currentStatus, type, statusHistory.
The generic parameter T extends string is modelled as String. -/
structure StateMachine where
  currentStatus : String
  type : DomainType
  statusHistory : List HistoryEntry
deriving DecidableEq

/-- StateTransitionResult from src/types/index.ts. -/
structure StateTransitionResult where
  success : Bool
  newStatus : Option String
  error : Option String
deriving DecidableEq

/-- recordState: pushes {status, timestamp} onto statusHistory. -/
def StateMachine.recordState (m : StateMachine) (status : String) (now : Nat) : StateMachine :=
  { m with statusHistory := m.statusHistory ++ [{ status := status, timestamp := now }] }

/-- The StateMachine constructor: sets currentStatus and type, then
records the initial status (so the history is seeded at construction). -/
def mkStateMachine (initialStatus : String) (type : DomainType) (now : Nat) : StateMachine :=
  (StateMachine.mk initialStatus type []).recordState initialStatus now

/-- transition(newStatus): no-op success when already at the target
(without recording history); failure leaving the machine unchanged
when the table forbids the move; otherwise commit and record. -/
def StateMachine.transition (m : StateMachine) (newStatus : String) (now : Nat) :
    StateTransitionResult × StateMachine :=
  if m.currentStatus = newStatus then
    ({ success := true, newStatus := some newStatus, error := none }, m)
  else if !(canTransition m.currentStatus newStatus m.type) then
    ({ success := false, newStatus := none,
       error := some ("Invalid state transition from " ++ m.currentStatus ++ " to " ++ newStatus) },
     m)
  else
    ({ success := true, newStatus := some newStatus, error := none },
     ({ m with currentStatus := newStatus }).recordState newStatus now)

/-- forceTransition(newStatus): unconditionally commits and records. -/
def StateMachine.forceTransition (m : StateMachine) (newStatus : String) (now : Nat) :
    StateTransitionResult × StateMachine :=
  ({ success := true, newStatus := some newStatus, error := none },
   ({ m with currentStatus := newStatus }).recordState newStatus now)

/-- One call against a state machine: either transition or
forceTransition, with the wall-clock instant of the call. -/
inductive SMOp where
  | transitionOp (target : String) (now : Nat)
  | forceOp (target : String) (now : Nat)
deriving DecidableEq

/-- Apply one call, keeping only the machine (the returned
StateTransitionResult does not affect subsequent state). -/
def applySMOp (m : StateMachine) (op : SMOp) : StateMachine :=
  match op with
  | .transitionOp t now => (m.transition t now).2
  | .forceOp t now => (m.forceTransition t now).2

/-- A finite sequence of transition / forceTransition calls. -/
def runSMOps (m : StateMachine) (ops : List SMOp) : StateMachine :=
  ops.foldl applySMOp m

/-- The history invariant asserted by claim C10: the history is
non-empty, its first entry holds the initial status, and its last
entry holds the current status. -/
def historyInvariant (init : String) (m : StateMachine) : Prop :=
  m.statusHistory ≠ [] ∧
  m.statusHistory.head?.map HistoryEntry.status = some init ∧
  m.statusHistory.getLast?.map HistoryEntry.status = some m.currentStatus

/-! ## Task executor (TaskExecutor in src/executors/ai-adapter.ts)

TaskExecutor calls the AI adapter on each task; whether that call
succeeds is modelled by an oracle `exec : ExecutableTask → Bool`.
The result/startedAt/completedAt bookkeeping written to storage does
not influence control flow and is not modelled; the `status` field is,
since the loop reads it back (canStart, checkDependencies). -/

/-- TaskStatus union type from src/types/index.ts. -/
inductive TaskStatus where
  | pending
  | inProgress
  | completed
  | failed
deriving DecidableEq

/-- ExecutableTask from src/types/index.ts (control-flow-relevant
fields; `project` is a String so that the executor's
"everything not equal to 'frontend' is backend" branch is kept). -/
structure ExecutableTask where
  id : String
  title : String
  description : String
  files : List String
  project : String
  dependsOn : List String
  status : TaskStatus
deriving DecidableEq

/-- TaskGroups from src/types/index.ts. -/
structure TaskGroups where
  backend : List ExecutableTask
  frontend : List ExecutableTask
deriving DecidableEq

/-- groupTasksByProject: one pass pushing tasks with
project === 'frontend' to frontend and everything else to backend;
List.partition performs exactly that stable split. -/
def groupTasksByProject (tasks : List ExecutableTask) : TaskGroups :=
  let p := tasks.partition (fun t => t.project = "frontend")
  { backend := p.2, frontend := p.1 }

/-- One scan pass of sortTasksByDependency's inner for-loop.  The
JS loop walks `remaining` from the last index down to index 0,
appending each task whose dependsOn are all in `processed` to
`sorted` (and its id to `processed`) and splicing it out.  Here the
argument is the reversed remaining list, so the head is the task the
JS loop examines first; the returned third component is the
still-remaining tasks back in their original relative order. -/
def scanPassRev (sorted : List ExecutableTask) (processed : List String) :
    List ExecutableTask → List ExecutableTask × List String × List ExecutableTask
  | [] => (sorted, processed, [])
  | task :: rest =>
    if task.dependsOn.all (fun dep => processed.contains dep) then
      scanPassRev (sorted ++ [task]) (processed ++ [task.id]) rest
    else
      let r := scanPassRev sorted processed rest
      (r.1, r.2.1, r.2.2 ++ [task])

/-- The while-loop of sortTasksByDependency: repeat scan passes while
tasks remain and the pass counter is below the bound (the bound is
the fuel, maxIterations = tasks.length * 2 at the call site). -/
def sortLoop : Nat → List ExecutableTask → List String → List ExecutableTask →
    List ExecutableTask × List ExecutableTask
  | 0, sorted, _, remaining => (sorted, remaining)
  | fuel + 1, sorted, processed, remaining =>
    if remaining = [] then (sorted, remaining)
    else
      let r := scanPassRev sorted processed remaining.reverse
      sortLoop fuel r.1 r.2.1 r.2.2

/-- sortTasksByDependency: bounded dependency-ordering loop, then the
tasks still remaining (cyclic or unsatisfiable dependencies) are
appended to the output. -/
def sortTasksByDependency (tasks : List ExecutableTask) : List ExecutableTask :=
  let r := sortLoop (tasks.length * 2) [] [] tasks
  r.1 ++ r.2

/-- Specification-level mirror of sortLoop that records, pass by
pass, the block of tasks each scan pass places (placement decisions
depend only on the processed id set, never on the already-placed
output — proved as sortLoop_eq_blocks).  Returns the per-pass blocks
and the final unplaced remainder. -/
def sortLoopBlocks : Nat → List String → List ExecutableTask →
    List (List ExecutableTask) × List ExecutableTask
  | 0, _, remaining => ([], remaining)
  | fuel + 1, processed, remaining =>
    if remaining = [] then ([], remaining)
    else
      let r := scanPassRev [] processed remaining.reverse
      let rb := sortLoopBlocks fuel r.2.1 r.2.2
      (r.1 :: rb.1, rb.2)

/-- A task list is dependency-respecting relative to an initial
processed id set: each task's dependsOn ids lie in that set extended
with the ids of the tasks before it in the list. -/
def depsRespected (processed : List String) : List ExecutableTask → Prop
  | [] => True
  | t :: rest => (∀ dep ∈ t.dependsOn, dep ∈ processed) ∧
      depsRespected (processed ++ [t.id]) rest

/-- TaskStateMachine.canStart (src/core/state-machine.ts): the status
is 'pending'. -/
def canStartTask (s : TaskStatus) : Bool :=
  s = TaskStatus.pending

/-- checkDependencies: every dependsOn id must resolve (by find on id)
to a task in allTasks whose status is 'completed'. -/
def checkDependencies (task : ExecutableTask) (allTasks : List ExecutableTask) : Bool :=
  task.dependsOn.all (fun depId =>
    match allTasks.find? (fun t => t.id = depId) with
    | some depTask => depTask.status = TaskStatus.completed
    | none => false)

/-- executeTask: sets status in_progress, invokes the AI adapter
(the oracle), and sets status completed / failed accordingly; returns
the mutated task and the boolean the source returns (true exactly
when the adapter call did not throw). -/
def executeTask (exec : ExecutableTask → Bool) (task : ExecutableTask) :
    ExecutableTask × Bool :=
  let started := { task with status := TaskStatus.inProgress }
  if exec started then
    ({ started with status := TaskStatus.completed }, true)
  else
    ({ started with status := TaskStatus.failed }, false)

/-- Outcome of running one task group: the boolean executeTaskGroup
returns, the task array after the in-place status mutations, and (as
a specification-level trace) the ids of the tasks actually executed,
in execution order. -/
structure GroupRun where
  success : Bool
  finalTasks : List ExecutableTask
  executed : List String
deriving DecidableEq

/-- The for-loop of executeTaskGroup over the sorted task array.
`done` are the already-visited tasks (with their mutations), `todo`
the rest; checkDependencies sees the whole current array, exactly as
the JS closure sees the mutated `sorted` array.  A task that is not
pending, or whose dependencies are not completed, is skipped; a
failed execution returns false immediately (fail-fast). -/
def runGroupAux (exec : ExecutableTask → Bool) :
    List ExecutableTask → List ExecutableTask → List String → GroupRun
  | done, [], executed => { success := true, finalTasks := done, executed := executed }
  | done, task :: rest, executed =>
    if !(canStartTask task.status) then
      runGroupAux exec (done ++ [task]) rest executed
    else if !(checkDependencies task (done ++ task :: rest)) then
      runGroupAux exec (done ++ [task]) rest executed
    else
      let r := executeTask exec task
      if r.2 then
        runGroupAux exec (done ++ [r.1]) rest (executed ++ [task.id])
      else
        { success := false, finalTasks := done ++ r.1 :: rest,
          executed := executed ++ [task.id] }

/-- executeTaskGroup: sort by dependency, then run serially with
fail-fast. -/
def executeTaskGroup (exec : ExecutableTask → Bool) (tasks : List ExecutableTask) : GroupRun :=
  runGroupAux exec [] (sortTasksByDependency tasks) []

/-- TaskExecutor.execute: split into backend/frontend buckets, run
each bucket (a bucket with no tasks resolves to true), and return the
conjunction of the bucket outcomes.  The two bucket runs are returned
alongside the boolean the source returns. -/
def TaskExecutor.execute (exec : ExecutableTask → Bool) (tasks : List ExecutableTask) :
    Bool × GroupRun × GroupRun :=
  let groups := groupTasksByProject tasks
  let rb := if groups.backend.length > 0 then executeTaskGroup exec groups.backend
            else { success := true, finalTasks := [], executed := [] }
  let rf := if groups.frontend.length > 0 then executeTaskGroup exec groups.frontend
            else { success := true, finalTasks := [], executed := [] }
  (rb.success && rf.success, rb, rf)

/-! ## AI CLI tool adapter (AICliAdapter in src/executors/ai-adapter.ts)

The persisted tool-status store (storage/agent-status/status.json,
accessed through loadToolStatus / updateToolStatus) is modelled as a
`List ToolStatus` threaded through the operations; the behaviour of
each backend process for the prompt at hand is modelled as oracle
data keyed by tool name. -/

/-- Boolean substring test on character lists (structural recursion
on the haystack). -/
def hasSubstring : List Char → List Char → Bool
  | [], pat => pat.isEmpty
  | h :: t, pat => pat.isPrefixOf (h :: t) || hasSubstring t pat

/-- Substring test on strings, working on the character lists. -/
def containsPattern (s pat : String) : Bool :=
  hasSubstring s.toList pat.toList

/-- Case-insensitive substring test (the /i regex flag): lowercase the
subject characters and match the (lowercase) pattern. -/
def containsPatternCI (s pat : String) : Bool :=
  hasSubstring (s.toList.map Char.toLower) pat.toList

/-- The case-insensitive members of QUOTA_PATTERNS (each regex is a
plain substring match; the /i flag is modelled by lowercasing the
subject against a lowercase pattern). -/
def QUOTA_PATTERNS_CI : List String :=
  ["quota", "limit", "rate limit", "insufficient", "credits", "api key", "authentication"]

/-- The case-sensitive members of QUOTA_PATTERNS (/401/, /403/, /429/). -/
def QUOTA_PATTERNS_PLAIN : List String :=
  ["401", "403", "429"]

/-- isQuotaError: some QUOTA_PATTERNS regex matches the output. -/
def isQuotaError (output : String) : Bool :=
  QUOTA_PATTERNS_CI.any (fun p => containsPatternCI output p) ||
  QUOTA_PATTERNS_PLAIN.any (fun p => containsPattern output p)

/-- ToolStatus from src/types/index.ts; the optional number fields
are Option Nat. -/
structure ToolStatus where
  name : String
  available : Bool
  lastSuccess : Option Nat
  lastFailed : Option Nat
  responseTimeMs : Option Nat
  failureCount : Nat
deriving DecidableEq

/-- ToolConfig from src/types/index.ts. -/
structure ToolConfig where
  name : String
  command : String
  args : List String
  enabled : Bool
  priority : Nat
deriving DecidableEq

/-- ToolsConfig from src/types/index.ts. -/
structure ToolsConfig where
  tools : List ToolConfig
  maxRetries : Nat
  retryDelayMs : Nat
  failureCooldownMs : Nat
  defaultTool : String
deriving DecidableEq

/-- ExecuteResult from src/types/index.ts. -/
structure ExecuteResult where
  exitCode : Nat
  output : String
  error : Option String
  duration : Nat
  tool : String
deriving DecidableEq

/-- A partial update to a ToolStatus (Partial<ToolStatus> in
updateToolStatus); `none` means the field is absent from the patch. -/
structure ToolStatusPatch where
  available : Option Bool
  lastSuccess : Option Nat
  lastFailed : Option Nat
  responseTimeMs : Option Nat
  failureCount : Option Nat
deriving DecidableEq

/-- Object-spread merge {...status, ...patch}. -/
def applyPatch (s : ToolStatus) (p : ToolStatusPatch) : ToolStatus :=
  { name := s.name,
    available := p.available.getD s.available,
    lastSuccess := if p.lastSuccess.isSome then p.lastSuccess else s.lastSuccess,
    lastFailed := if p.lastFailed.isSome then p.lastFailed else s.lastFailed,
    responseTimeMs := if p.responseTimeMs.isSome then p.responseTimeMs else s.responseTimeMs,
    failureCount := p.failureCount.getD s.failureCount }

/-- The fresh record pushed by updateToolStatus when the tool has no
entry yet: {name, available: true, failureCount: 0, ...updates}. -/
def freshToolStatus (toolName : String) : ToolStatus :=
  { name := toolName, available := true, lastSuccess := none, lastFailed := none,
    responseTimeMs := none, failureCount := 0 }

/-- updateToolStatus (storage layer): merge the patch into the first
record with that name, or push a fresh record carrying the patch. -/
def updateToolStatus (statuses : List ToolStatus) (toolName : String)
    (patch : ToolStatusPatch) : List ToolStatus :=
  match statuses.findIdx? (fun s => s.name = toolName) with
  | some i =>
    match statuses[i]? with
    | some s => statuses.set i (applyPatch s patch)
    | none => statuses
  | none => statuses ++ [applyPatch (freshToolStatus toolName) patch]

/-- markSuccess: available=true, stamp lastSuccess, record the
response time, reset failureCount. -/
def markSuccess (statuses : List ToolStatus) (toolName : String)
    (responseTimeMs now : Nat) : List ToolStatus :=
  updateToolStatus statuses toolName
    { available := some true, lastSuccess := some now, lastFailed := none,
      responseTimeMs := some responseTimeMs, failureCount := some 0 }

/-- markFailed: available becomes false only for reason 'quota',
lastFailed is stamped, failureCount is the previous count (0 when the
tool has no record, and `count || 0` agrees with getD 0) plus one. -/
def markFailed (statuses : List ToolStatus) (toolName reason : String)
    (now : Nat) : List ToolStatus :=
  let tool := statuses.find? (fun t => t.name = toolName)
  let failureCount := (match tool with | some t => t.failureCount | none => 0) + 1
  updateToolStatus statuses toolName
    { available := some (decide (reason ≠ "quota")), lastSuccess := none,
      lastFailed := some now, responseTimeMs := none,
      failureCount := some failureCount }

/-- `statusMap.get(name)` where statusMap is `new Map(statuses.map(s
=> [s.name, s]))`: a JS Map keeps the last entry per key. -/
def statusMapGet (statuses : List ToolStatus) (name : String) : Option ToolStatus :=
  statuses.reverse.find? (fun s => s.name = name)

/-- `configX?.priority || 999`: missing tool config, and the falsy
priority 0, both yield 999. -/
def priorityOf (config : ToolsConfig) (name : String) : Nat :=
  match config.tools.find? (fun t => t.name = name) with
  | some c => if c.priority = 0 then 999 else c.priority
  | none => 999

/-- `x.responseTimeMs || Infinity`: none means Infinity, and the
falsy 0 also becomes Infinity. -/
def responseKey (s : ToolStatus) : Option Nat :=
  match s.responseTimeMs with
  | some r => if r = 0 then none else some r
  | none => none

/-- The sort comparator of getOrderedToolPool as a "does not need to
come after" relation: poolLe a b holds iff the JS comparator applied
to (a, b) returns a value ≤ 0 (NaN from Infinity - Infinity sorts as
0).  available-first, then ascending priority, then ascending
response time with unknown last. -/
def poolLe (config : ToolsConfig) (a b : ToolStatus) : Bool :=
  if a.available ≠ b.available then a.available
  else
    let pa := priorityOf config a.name
    let pb := priorityOf config b.name
    if pa ≠ pb then pa < pb
    else
      match responseKey a, responseKey b with
      | _, none => true
      | some x, some y => x ≤ y
      | none, some _ => false

/-- Stable insertion of x after every element that may precede it. -/
def insertLe (le : ToolStatus → ToolStatus → Bool) (x : ToolStatus) :
    List ToolStatus → List ToolStatus
  | [] => [x]
  | y :: ys => if le y x then y :: insertLe le x ys else x :: y :: ys

/-- Stable sort by a total preorder; JS Array.prototype.sort is
specified to be stable and, for this consistent comparator, produces
exactly the stable order. -/
def stableSortLe (le : ToolStatus → ToolStatus → Bool)
    (l : List ToolStatus) : List ToolStatus :=
  l.foldl (fun acc x => insertLe le x acc) []

/-- The per-tool status assembled by getOrderedToolPool's for-loop:
the persisted record (or the available/zero-failures default), with
available forced to false when lastFailed is set (and truthy, i.e.
non-zero) and within failureCooldownMs of now. -/
def poolEntry (statuses : List ToolStatus) (failureCooldownMs now : Nat)
    (toolConfig : ToolConfig) : ToolStatus :=
  let status := (statusMapGet statuses toolConfig.name).getD (freshToolStatus toolConfig.name)
  match status.lastFailed with
  | some lf =>
    if lf ≠ 0 ∧ now - lf < failureCooldownMs then { status with available := false }
    else status
  | none => status

/-- getOrderedToolPool: keep enabled tools, attach cooldown-adjusted
statuses, and sort by the comparator.  Pure: the persisted statuses
are read, never written. -/
def getOrderedToolPool (config : ToolsConfig) (statuses : List ToolStatus)
    (failureCooldownMs now : Nat) : List ToolStatus :=
  let tools := (config.tools.filter (fun t => t.enabled)).map
    (poolEntry statuses failureCooldownMs now)
  stableSortLe (poolLe config) tools

/-- Behaviour of one backend adapter for the prompt at hand: the
ExecuteResult its execute() resolves with, or the message of the
error it throws. -/
inductive AdapterOutcome where
  | result (r : ExecuteResult)
  | thrown (msg : String)
deriving DecidableEq

/-- `result.error || result.output`: an absent or empty error string
falls through to the output. -/
def jsOrError (error : Option String) (output : String) : String :=
  match error with
  | some e => if e = "" then output else e
  | none => output

deriving instance DecidableEq for Except

/-- `options?.preferredTool && tool.name !== options.preferredTool`:
skip when a preferred tool is set and this is a different tool. -/
def preferredSkip (preferredTool : Option String) (name : String) : Bool :=
  match preferredTool with
  | some p => decide (name ≠ p)
  | none => false

/-- What AICliAdapter.execute returns together with the persisted
tool-status store after the call and (as a specification-level
trace) the names of the backends actually invoked, in order. -/
structure AdapterExec where
  outcome : Except String ExecuteResult
  statuses : List ToolStatus
  invoked : List String
deriving DecidableEq

/-- The message of the aggregate error thrown when the pool is
exhausted or broken out of (template literal: an unset lastError
prints as "undefined"). -/
def allToolsFailedMsg (lastError : Option String) : String :=
  "All tools failed. Last error: " ++ lastError.getD "undefined"

/-- The for-loop of AICliAdapter.execute over the ordered pool.
A tool that is not the preferred one, or that has no entry in the
adapters map, is skipped.  Exit code 0 persists success and returns
the result.  A non-zero exit persists failure and either continues
(quota-pattern match) or throws the aggregate error (hard error);
a thrown adapter error persists failure and throws the aggregate
error (the `break` followed by the final `throw`). -/
def execLoop (adapters : List (String × AdapterOutcome)) (preferredTool : Option String)
    (now : Nat) :
    List ToolStatus → List ToolStatus → Option String → List String → AdapterExec
  | [], statuses, lastError, invoked =>
    { outcome := Except.error (allToolsFailedMsg lastError),
      statuses := statuses, invoked := invoked }
  | tool :: rest, statuses, lastError, invoked =>
    if preferredSkip preferredTool tool.name then
      execLoop adapters preferredTool now rest statuses lastError invoked
    else
      match adapters.lookup tool.name with
      | none =>
        execLoop adapters preferredTool now rest statuses lastError invoked
      | some (.result r) =>
        if r.exitCode = 0 then
          { outcome := Except.ok r,
            statuses := markSuccess statuses tool.name r.duration now,
            invoked := invoked ++ [tool.name] }
        else
          let lastErr := jsOrError r.error r.output
          let isQuota := isQuotaError r.output || isQuotaError lastErr
          let statuses1 := markFailed statuses tool.name
            (if isQuota then "quota" else "error") now
          if isQuota then
            execLoop adapters preferredTool now rest statuses1 (some lastErr)
              (invoked ++ [tool.name])
          else
            { outcome := Except.error (allToolsFailedMsg (some lastErr)),
              statuses := statuses1, invoked := invoked ++ [tool.name] }
      | some (.thrown msg) =>
        { outcome := Except.error (allToolsFailedMsg (some msg)),
          statuses := markFailed statuses tool.name "error" now,
          invoked := invoked ++ [tool.name] }

/-- AICliAdapter.execute.  The tools config is taken as given (the
source throws before this point if it cannot be loaded), the
persisted statuses are the store contents, `adapters` is the
instance's adapters map paired with each backend's behaviour for
this prompt, and Date.now() is the parameter now. -/
def AICliAdapter.execute (config : ToolsConfig) (statuses : List ToolStatus)
    (adapters : List (String × AdapterOutcome)) (preferredTool : Option String)
    (now : Nat) : AdapterExec :=
  let toolPool := getOrderedToolPool config statuses config.failureCooldownMs now
  if toolPool.length = 0 then
    { outcome := Except.error "No available AI tools. Please check your configuration.",
      statuses := statuses, invoked := [] }
  else
    execLoop adapters preferredTool now toolPool statuses none []

/-! ## Scheduler polling (Scheduler in src/types/index.ts)

A small-step interleaving model of two overlapping poll() invocations
sharing the activeTasks set and the persisted store.  Each thread
advances through the suspension points of poll/handleClarification:
it fetches the pending list, then for each fetched item checks the
concurrency budget (canStartTask), adds the id to activeTasks and
starts the handler — a single atomic step, since there is no await
between the check, the Set.add and the handler entry — and at some
later step the handler completes: the persisted status leaves
'pending' and the finally-block removes the id.  Collapsing the
handler body to one completion step only removes interleavings, so
any behaviour of this model is a behaviour of the source. -/

/-- Progress of one poll() invocation. -/
inductive PollPhase where
  | fetching
  | ready (queue : List String)
  | handling (id : String) (queue : List String)
  | finished
deriving DecidableEq

/-- Shared state plus the two poll threads.  activeIds models the
Scheduler's activeTasks Set (insertion-ordered, duplicate-free);
pendingStore the ids whose persisted status is still 'pending'. -/
structure SchedSys where
  activeIds : List String
  pendingStore : List String
  maxConcurrent : Nat
  thread1 : PollPhase
  thread2 : PollPhase
deriving DecidableEq

/-- Set.add: appends only when absent. -/
def addId (l : List String) (id : String) : List String :=
  if l.contains id then l else l ++ [id]

/-- One scheduler step, chosen by the environment: which of the two
threads advances, and how. -/
inductive SchedAction where
  | fetch (t : Bool)
  | dispatch (t : Bool)
  | budgetStop (t : Bool)
  | completeHandler (t : Bool)
  | finishPoll (t : Bool)
deriving DecidableEq

/-- Phase of the acting thread. -/
def SchedSys.phaseOf (s : SchedSys) (t : Bool) : PollPhase :=
  if t then s.thread1 else s.thread2

/-- Replace the phase of the acting thread. -/
def SchedSys.setPhase (s : SchedSys) (t : Bool) (p : PollPhase) : SchedSys :=
  if t then { s with thread1 := p } else { s with thread2 := p }

/-- Guarded small-step function; none when the action is not enabled
in the current state.
  fetch: listPendingFeedbacks returns the current pending snapshot.
  dispatch: the head item passes canStartTask (activeIds.size <
  maxConcurrent — the only guard in the source; membership of the id
  in activeIds is never consulted), its id is added to activeIds and
  its handler starts.
  budgetStop: canStartTask fails and the loop breaks.
  completeHandler: the handler finishes — the persisted status leaves
  'pending' and the finally-block deletes the id.
  finishPoll: the loop over the fetched items ends. -/
def schedStep (s : SchedSys) (a : SchedAction) : Option SchedSys :=
  match a with
  | .fetch t =>
    match s.phaseOf t with
    | .fetching => some (s.setPhase t (.ready s.pendingStore))
    | _ => none
  | .dispatch t =>
    match s.phaseOf t with
    | .ready (id :: rest) =>
      if s.activeIds.length < s.maxConcurrent then
        some ({ s with activeIds := addId s.activeIds id }.setPhase t (.handling id rest))
      else none
    | _ => none
  | .budgetStop t =>
    match s.phaseOf t with
    | .ready (_ :: _) =>
      if s.activeIds.length < s.maxConcurrent then none
      else some (s.setPhase t .finished)
    | _ => none
  | .completeHandler t =>
    match s.phaseOf t with
    | .handling id rest =>
      some ({ s with
              activeIds := s.activeIds.filter (fun x => x ≠ id),
              pendingStore := s.pendingStore.filter (fun x => x ≠ id) }.setPhase t (.ready rest))
    | _ => none
  | .finishPoll t =>
    match s.phaseOf t with
    | .ready [] => some (s.setPhase t .finished)
    | _ => none

/-- Run a list of actions; an action that is not enabled leaves the
state unchanged. -/
def runSched (s : SchedSys) (acts : List SchedAction) : SchedSys :=
  acts.foldl (fun st a => (schedStep st a).getD st) s

/-- A dispatch of item id fires in state s for thread t: the step is
enabled and starts the handler for the head of the thread's queue. -/
def dispatchFires (s : SchedSys) (t : Bool) (id : String) : Bool :=
  (match s.phaseOf t with
   | .ready (h :: _) => h == id
   | _ => false) && (schedStep s (.dispatch t)).isSome

/-! ## Concrete instances used by the theorems -/

/-- Task A: no dependencies, pending, backend bucket. -/
def taskA : ExecutableTask :=
  { id := "A", title := "task A", description := "", files := [],
    project := "backend", dependsOn := [], status := .pending }

/-- Task B: depends on A. -/
def taskB : ExecutableTask :=
  { id := "B", title := "task B", description := "", files := [],
    project := "backend", dependsOn := ["A"], status := .pending }

/-- Task C: depends on A. -/
def taskC : ExecutableTask :=
  { id := "C", title := "task C", description := "", files := [],
    project := "backend", dependsOn := ["A"], status := .pending }

/-- A dependency-free backend task with id b1. -/
def taskBack : ExecutableTask :=
  { id := "b1", title := "backend task", description := "", files := [],
    project := "backend", dependsOn := [], status := .pending }

/-- A dependency-free frontend task with id f1. -/
def taskFront : ExecutableTask :=
  { id := "f1", title := "frontend task", description := "", files := [],
    project := "frontend", dependsOn := [], status := .pending }

/-- Tools config with two enabled backends, alpha preferred by
priority. -/
def cfgTwo : ToolsConfig :=
  { tools := [
      { name := "alpha", command := "alpha-cli", args := [], enabled := true, priority := 1 },
      { name := "beta", command := "beta-cli", args := [], enabled := true, priority := 2 }],
    maxRetries := 3, retryDelayMs := 1000, failureCooldownMs := 300000,
    defaultTool := "alpha" }

/-- Tools config with a single enabled backend alpha. -/
def cfgOne : ToolsConfig :=
  { tools := [
      { name := "alpha", command := "alpha-cli", args := [], enabled := true, priority := 1 }],
    maxRetries := 3, retryDelayMs := 1000, failureCooldownMs := 300000,
    defaultTool := "alpha" }

/-- The successful result backend beta produces (exit code 0). -/
def betaResult : ExecuteResult :=
  { exitCode := 0, output := "done", error := none, duration := 42, tool := "beta" }

/-- Adapter behaviours for the failover scenario: alpha exits
non-zero with the given output text, beta exits 0. -/
def adaptersFailover (out1 : String) : List (String × AdapterOutcome) :=
  [("alpha", .result { exitCode := 1, output := out1, error := none, duration := 5, tool := "alpha" }),
   ("beta", .result betaResult)]

/-- Adapter behaviour for the single-backend scenario: alpha exits
non-zero with the given output text. -/
def adaptersHardFail (out1 : String) : List (String × AdapterOutcome) :=
  [("alpha", .result { exitCode := 1, output := out1, error := none, duration := 5, tool := "alpha" })]

/-- A persisted record for alpha with the given failure count and no
failure timestamp. -/
def alphaRecord (k : Nat) : ToolStatus :=
  { name := "alpha", available := true, lastSuccess := none, lastFailed := none,
    responseTimeMs := none, failureCount := k }

/-- A persisted record for alpha that last failed at the given
instant. -/
def alphaFailedAt (lf : Nat) : ToolStatus :=
  { name := "alpha", available := true, lastSuccess := none, lastFailed := some lf,
    responseTimeMs := none, failureCount := 1 }

/-- Initial scheduler state: one pending item X, both poll threads
about to fetch, the source default maxConcurrent = 3. -/
def sysX : SchedSys :=
  { activeIds := [], pendingStore := ["X"], maxConcurrent := 3,
    thread1 := .fetching, thread2 := .fetching }

/-- The interleaving in which thread 1 and thread 2 both fetch the
pending list (both see X still pending) and thread 1 then dispatches
X. -/
def overlapTrace : List SchedAction :=
  [.fetch true, .fetch false, .dispatch true]

/-! ## Theorems -/

/-- C8: for every domain and every status s (any machine m with
currentStatus s), transition(s) returns success, leaves the current
status unchanged, and does not append a history entry. -/
theorem transition_self_silent_noop (m : StateMachine) (now : Nat) :
    (m.transition m.currentStatus now).1.success = true ∧
    (m.transition m.currentStatus now).2.currentStatus = m.currentStatus ∧
    (m.transition m.currentStatus now).2.statusHistory = m.statusHistory := by
  simp [StateMachine.transition]

/-- Committing a status with recordState preserves the history
invariant. -/
theorem historyInvariant_recordState (init st : String) (now : Nat) (m : StateMachine)
    (h : historyInvariant init m) :
    historyInvariant init (({ m with currentStatus := st }).recordState st now) := by
  obtain ⟨hne, hhead, hlast⟩ := h
  refine ⟨by simp [StateMachine.recordState], ?_, ?_⟩
  · obtain ⟨a, t, ht⟩ := List.exists_cons_of_ne_nil hne
    rw [StateMachine.recordState] at *
    simp only [ht, List.cons_append, List.head?_cons] at *
    simpa using hhead
  · simp [StateMachine.recordState, List.getLast?_concat]

/-- Each transition / forceTransition call preserves the history
invariant. -/
theorem historyInvariant_applySMOp (init : String) (m : StateMachine) (op : SMOp)
    (h : historyInvariant init m) : historyInvariant init (applySMOp m op) := by
  cases op with
  | transitionOp t now =>
    simp only [applySMOp, StateMachine.transition]
    split
    · exact h
    · split
      · exact h
      · exact historyInvariant_recordState init t now m h
  | forceOp t now =>
    exact historyInvariant_recordState init t now m h

/-- A freshly constructed machine satisfies the history invariant. -/
theorem historyInvariant_mk (init : String) (d : DomainType) (t0 : Nat) :
    historyInvariant init (mkStateMachine init d t0) := by
  refine ⟨by simp [mkStateMachine, StateMachine.recordState], ?_, ?_⟩ <;>
    simp [mkStateMachine, StateMachine.recordState]

/-- The history invariant is preserved along any call sequence. -/
theorem historyInvariant_runSMOps (init : String) (ops : List SMOp) (m : StateMachine)
    (h : historyInvariant init m) : historyInvariant init (runSMOps m ops) := by
  induction ops generalizing m with
  | nil => exact h
  | cons op rest ih =>
    have h1 := historyInvariant_applySMOp init m op h
    simpa [runSMOps, List.foldl_cons] using ih (applySMOp m op) h1

/-- C10: for any domain and initial status, after any finite sequence
of transition and forceTransition calls the history is non-empty, its
first entry carries the initial status, and its last entry carries the
current status. -/
theorem stateMachine_history_head_seeded_tail_current
    (init : String) (d : DomainType) (t0 : Nat) (ops : List SMOp) :
    historyInvariant init (runSMOps (mkStateMachine init d t0) ops) :=
  historyInvariant_runSMOps init ops _ (historyInvariant_mk init d t0)

/-- C4: with A (no deps), B (deps [A]), C (deps [A]) all pending in
one bucket, the group executes A before both B and C; and when A's
execution fails, neither B nor C runs and the bucket returns false. -/
theorem taskGroup_order_and_failfast :
    ((executeTaskGroup (fun _ => true) [taskA, taskB, taskC]).executed = ["A", "C", "B"] ∧
     (executeTaskGroup (fun _ => true) [taskA, taskB, taskC]).success = true) ∧
    ((executeTaskGroup (fun t => decide (t.id ≠ "A")) [taskA, taskB, taskC]).executed = ["A"] ∧
     (executeTaskGroup (fun t => decide (t.id ≠ "A")) [taskA, taskB, taskC]).success = false) := by
  decide

/-- One scan pass only moves tasks between the placed and remaining
parts: placed ++ remaining is a permutation of what it was. -/
theorem scanPassRev_perm (rev sorted : List ExecutableTask) (processed : List String) :
    ((scanPassRev sorted processed rev).1 ++ (scanPassRev sorted processed rev).2.2).Perm
      (sorted ++ rev) := by
  induction rev generalizing sorted processed with
  | nil => simp [scanPassRev]
  | cons task rest ih =>
    rw [scanPassRev]
    split
    · have h1 := ih (sorted ++ [task]) (processed ++ [task.id])
      simpa using h1
    · have h1 := ih sorted processed
      have h2 := h1.append_right [task]
      have h3 : (((scanPassRev sorted processed rest).1 ++
          (scanPassRev sorted processed rest).2.2) ++ [task]).Perm
          (sorted ++ (task :: rest)) := by
        refine h2.trans ?_
        rw [List.append_assoc]
        exact (List.perm_append_singleton task rest).append_left sorted
      simpa [List.append_assoc] using h3

/-- The tasks a scan pass leaves remaining are a subsequence of the
scanned tasks in their original (un-reversed) order. -/
theorem scanPassRev_remaining_sublist (rev sorted : List ExecutableTask)
    (processed : List String) :
    (scanPassRev sorted processed rev).2.2.Sublist rev.reverse := by
  induction rev generalizing sorted processed with
  | nil => simp [scanPassRev]
  | cons task rest ih =>
    rw [scanPassRev]
    split
    · exact (ih (sorted ++ [task]) (processed ++ [task.id])).trans
        (by simp [List.sublist_append_left])
    · simpa using (ih sorted processed).append_right [task]

/-- Across the bounded pass loop, placed ++ remaining stays a
permutation of the input. -/
theorem sortLoop_perm (fuel : Nat) (remaining sorted : List ExecutableTask)
    (processed : List String) :
    ((sortLoop fuel sorted processed remaining).1 ++
      (sortLoop fuel sorted processed remaining).2).Perm (sorted ++ remaining) := by
  induction fuel generalizing remaining sorted processed with
  | zero => simp [sortLoop]
  | succ fuel ih =>
    rw [sortLoop]
    split
    · simp
    · refine (ih _ _ _).trans ?_
      refine (scanPassRev_perm remaining.reverse sorted processed).trans ?_
      exact (remaining.reverse_perm).append_left sorted

/-- The tasks the bounded loop leaves unplaced are a subsequence of
its remaining input, hence in original relative order. -/
theorem sortLoop_remaining_sublist (fuel : Nat) (remaining sorted : List ExecutableTask)
    (processed : List String) :
    (sortLoop fuel sorted processed remaining).2.Sublist remaining := by
  induction fuel generalizing remaining sorted processed with
  | zero => simp [sortLoop]
  | succ fuel ih =>
    rw [sortLoop]
    split
    · simp
    · refine (ih _ _ _).trans ?_
      simpa using scanPassRev_remaining_sublist remaining.reverse sorted processed

/-- C6: for every input list (cyclic or dangling dependencies
included) the pass-bounded dependency sort returns every input task
exactly once — the output is a permutation of the input — and the
tasks still unplaced when the 2 × |tasks| pass bound is hit form a
subsequence of the input (original relative order) appended at the
end of the output. -/
theorem sortTasks_total_bestEffort (tasks : List ExecutableTask) :
    (sortTasksByDependency tasks).Perm tasks ∧
    (sortLoop (tasks.length * 2) [] [] tasks).2.Sublist tasks ∧
    sortTasksByDependency tasks =
      (sortLoop (tasks.length * 2) [] [] tasks).1 ++
        (sortLoop (tasks.length * 2) [] [] tasks).2 := by
  refine ⟨?_, sortLoop_remaining_sublist _ _ _ _, rfl⟩
  simpa [sortTasksByDependency] using sortLoop_perm (tasks.length * 2) tasks [] []

/-- C7 counterexample: taskA and the dependency-free variant of taskB
both become placeable in the first scan pass, taskA is earlier in the
input list, yet the output places the later task first — the
backward scan reverses same-pass ties, refuting "the one earlier in
the input list precedes the other". -/
theorem tie_order_counterexample :
    sortTasksByDependency [taskA, { taskB with dependsOn := [] }] =
      [{ taskB with dependsOn := [] }, taskA] ∧
    taskA ≠ ({ taskB with dependsOn := [] }) := by
  decide

/-- The placed accumulator of a scan pass is passive: every pass
appends a block of tasks whose computation depends only on the
processed id set and the scanned list. -/
theorem scanPassRev_acc (rev : List ExecutableTask) (sorted : List ExecutableTask)
    (processed : List String) :
    scanPassRev sorted processed rev =
      (sorted ++ (scanPassRev [] processed rev).1,
       (scanPassRev [] processed rev).2.1,
       (scanPassRev [] processed rev).2.2) := by
  induction rev generalizing sorted processed with
  | nil => simp [scanPassRev]
  | cons task rest ih =>
    simp only [scanPassRev]
    split
    · rw [ih (sorted ++ [task]), ih ([] ++ [task])]
      simp
    · rw [ih sorted, ih []]

/-- What one scan pass places: a subsequence of the scanned (reversed
remaining) list; the pass extends processed by exactly the placed
ids; and each placed task's dependencies lie in processed plus the
ids placed earlier in the same pass. -/
theorem scanPassRev_block (rev : List ExecutableTask) (processed : List String) :
    (scanPassRev [] processed rev).1.Sublist rev ∧
    (scanPassRev [] processed rev).2.1 =
      processed ++ (scanPassRev [] processed rev).1.map ExecutableTask.id ∧
    depsRespected processed (scanPassRev [] processed rev).1 := by
  induction rev generalizing processed with
  | nil => simp [scanPassRev, depsRespected]
  | cons task rest ih =>
    rw [scanPassRev]
    split
    · rename_i hready
      rw [show ([] : List ExecutableTask) ++ [task] = [task] from rfl,
        scanPassRev_acc rest [task] (processed ++ [task.id])]
      obtain ⟨ihs, ihp, ihd⟩ := ih (processed ++ [task.id])
      refine ⟨?_, ?_, ?_⟩
      · simp only [List.nil_append, List.cons_append]
        exact List.Sublist.cons₂ task ihs
      · rw [ihp]
        simp [List.append_assoc]
      · refine ⟨?_, by simpa using ihd⟩
        intro dep hdep
        have := List.all_eq_true.mp hready dep hdep
        simpa using this
    · obtain ⟨ihs, ihp, ihd⟩ := ih processed
      exact ⟨ihs.cons task, ihp, ihd⟩

/-- depsRespected composes over concatenation when the second part is
respected relative to processed extended by the first part's ids. -/
theorem depsRespected_append (p : List String) (B C : List ExecutableTask)
    (hB : depsRespected p B)
    (hC : depsRespected (p ++ B.map ExecutableTask.id) C) :
    depsRespected p (B ++ C) := by
  induction B generalizing p with
  | nil => simpa using hC
  | cons t B ih =>
    obtain ⟨h1, h2⟩ := hB
    refine ⟨h1, ?_⟩
    refine ih (p ++ [t.id]) h2 ?_
    simpa [List.append_assoc] using hC

/-- sortLoop agrees with its pass-block mirror: the loop appends
exactly the flattened pass blocks to the placed accumulator and
leaves the same unplaced remainder. -/
theorem sortLoop_eq_blocks (fuel : Nat) (remaining sorted : List ExecutableTask)
    (processed : List String) :
    sortLoop fuel sorted processed remaining =
      (sorted ++ (sortLoopBlocks fuel processed remaining).1.flatten,
       (sortLoopBlocks fuel processed remaining).2) := by
  induction fuel generalizing remaining sorted processed with
  | zero => simp [sortLoop, sortLoopBlocks]
  | succ fuel ih =>
    rw [sortLoop, sortLoopBlocks]
    split
    · simp
    · simp only [scanPassRev_acc remaining.reverse sorted processed]
      rw [ih]
      simp [List.append_assoc]

/-- Every pass block of the bounded loop is a subsequence of the
reverse of the remaining input, the final remainder is a subsequence
of the remaining input, and the concatenated blocks are
dependency-respecting relative to the initial processed set. -/
theorem sortLoopBlocks_spec (fuel : Nat) (remaining : List ExecutableTask)
    (processed : List String) :
    (∀ b ∈ (sortLoopBlocks fuel processed remaining).1, b.Sublist remaining.reverse) ∧
    (sortLoopBlocks fuel processed remaining).2.Sublist remaining ∧
    depsRespected processed (sortLoopBlocks fuel processed remaining).1.flatten := by
  induction fuel generalizing remaining processed with
  | zero => simp [sortLoopBlocks, depsRespected]
  | succ fuel ih =>
    rw [sortLoopBlocks]
    split
    · simp [depsRespected]
    · have hblock := scanPassRev_block remaining.reverse processed
      have hleft : (scanPassRev [] processed remaining.reverse).2.2.Sublist remaining := by
        simpa using scanPassRev_remaining_sublist remaining.reverse [] processed
      have hrec := ih (scanPassRev [] processed remaining.reverse).2.2
        (scanPassRev [] processed remaining.reverse).2.1
      refine ⟨?_, ?_, ?_⟩
      · intro b hb
        simp only [List.mem_cons] at hb
        rcases hb with rfl | hb
        · exact hblock.1
        · exact ((hrec.1 b hb).trans hleft.reverse)
      · exact hrec.2.1.trans hleft
      · rw [List.flatten_cons]
        refine depsRespected_append processed _ _ hblock.2.2 ?_
        rw [← hblock.2.1]
        exact hrec.2.2

/-- C7 amended: within one bucket the dependency sort's output is the
concatenation of its scan passes' placement blocks followed by the
unplaced remainder; the placed part is dependency-respecting (each
placed task's dependsOn ids belong to tasks placed earlier in the
output), and — for any dependency graph — each pass's block is a
subsequence of the reversed input, so whenever two tasks both become
placeable in the same scan pass the one later in the input list
precedes the other; the unplaced remainder keeps original input
order. -/
theorem sortTasks_topo_reverse_ties (tasks : List ExecutableTask) :
    sortTasksByDependency tasks =
      (sortLoopBlocks (tasks.length * 2) [] tasks).1.flatten ++
        (sortLoopBlocks (tasks.length * 2) [] tasks).2 ∧
    (∀ b ∈ (sortLoopBlocks (tasks.length * 2) [] tasks).1, b.Sublist tasks.reverse) ∧
    depsRespected [] ((sortLoopBlocks (tasks.length * 2) [] tasks).1.flatten) ∧
    (sortLoopBlocks (tasks.length * 2) [] tasks).2.Sublist tasks := by
  have hspec := sortLoopBlocks_spec (tasks.length * 2) tasks []
  refine ⟨?_, hspec.1, hspec.2.2, hspec.2.1⟩
  unfold sortTasksByDependency
  rw [sortLoop_eq_blocks]
  simp

/-- An empty bucket runs to a vacuous success. -/
theorem executeTaskGroup_nil (exec : ExecutableTask → Bool) :
    executeTaskGroup exec [] =
      { success := true, finalTasks := [], executed := [] } := rfl

/-- C5: for every batch, TaskExecutor.execute runs the backend bucket
and the frontend bucket each exactly as a standalone group run of that
bucket — so one bucket's failure cannot affect the other — and the
returned boolean is the conjunction of the two bucket outcomes; in the
concrete batch where the backend bucket's sole task b1 fails, the
frontend bucket still executes its task f1 successfully and the
overall result is false. -/
theorem taskExecutor_independent_buckets :
    (∀ (exec : ExecutableTask → Bool) (tasks : List ExecutableTask),
      (TaskExecutor.execute exec tasks).2.1 =
          executeTaskGroup exec (groupTasksByProject tasks).backend ∧
      (TaskExecutor.execute exec tasks).2.2 =
          executeTaskGroup exec (groupTasksByProject tasks).frontend ∧
      (TaskExecutor.execute exec tasks).1 =
        ((executeTaskGroup exec (groupTasksByProject tasks).backend).success &&
         (executeTaskGroup exec (groupTasksByProject tasks).frontend).success)) ∧
    ((TaskExecutor.execute (fun t => decide (t.id ≠ "b1")) [taskBack, taskFront]).1 = false ∧
     (TaskExecutor.execute (fun t => decide (t.id ≠ "b1")) [taskBack, taskFront]).2.2.executed
        = ["f1"] ∧
     (TaskExecutor.execute (fun t => decide (t.id ≠ "b1")) [taskBack, taskFront]).2.2.success
        = true) := by
  constructor
  · intro exec tasks
    refine ⟨?_, ?_, ?_⟩ <;>
    · rw [TaskExecutor.execute]
      rcases hb : (groupTasksByProject tasks).backend with _ | ⟨b, bs⟩ <;>
        rcases hf : (groupTasksByProject tasks).frontend with _ | ⟨f, fs⟩ <;>
          simp [hb, hf, executeTaskGroup_nil]
  · exact ⟨by decide, by decide, by decide⟩

/-- C1: with two enabled backends (alpha preferred by priority) where
alpha exits non-zero with quota-pattern output and beta exits 0,
execute fails over: both backends are invoked, the call returns
beta's result, and alpha's persisted record ends with available=false
(lastFailed stamped, failureCount 1) while beta's records the
success. -/
theorem failover_on_quota (out1 : String) (h : isQuotaError out1 = true) :
    AICliAdapter.execute cfgTwo [] (adaptersFailover out1) none 1000000 =
      { outcome := Except.ok betaResult,
        statuses := [
          { name := "alpha", available := false, lastSuccess := none,
            lastFailed := some 1000000, responseTimeMs := none, failureCount := 1 },
          { name := "beta", available := true, lastSuccess := some 1000000,
            lastFailed := none, responseTimeMs := some 42, failureCount := 0 }],
        invoked := ["alpha", "beta"] } := by
  have hpool : getOrderedToolPool cfgTwo [] cfgTwo.failureCooldownMs 1000000 =
      [freshToolStatus "alpha", freshToolStatus "beta"] := by decide
  rw [AICliAdapter.execute]
  simp only [hpool]
  simp [execLoop, adaptersFailover, preferredSkip, List.lookup, jsOrError, h,
    markFailed, markSuccess, updateToolStatus, applyPatch, freshToolStatus, betaResult]

/-- C1 witness: the failover scenario at the concrete quota output
"quota exceeded". -/
theorem failover_on_quota_witness :
    isQuotaError "quota exceeded" = true ∧
    AICliAdapter.execute cfgTwo [] (adaptersFailover "quota exceeded") none 1000000 =
      { outcome := Except.ok betaResult,
        statuses := [
          { name := "alpha", available := false, lastSuccess := none,
            lastFailed := some 1000000, responseTimeMs := none, failureCount := 1 },
          { name := "beta", available := true, lastSuccess := some 1000000,
            lastFailed := none, responseTimeMs := some 42, failureCount := 0 }],
        invoked := ["alpha", "beta"] } :=
  ⟨by decide, failover_on_quota "quota exceeded" (by decide)⟩

/-- C3: with a single enabled backend whose invocation exits non-zero
with output matching no quota pattern, execute invokes exactly that
one backend (no failover), raises the aggregate error carrying the
last observed error text, and the persisted record keeps
available=true with failureCount incremented by one. -/
theorem hard_error_no_failover (out1 : String) (k : Nat) (h : isQuotaError out1 = false) :
    AICliAdapter.execute cfgOne [alphaRecord k] (adaptersHardFail out1) none 1000000 =
      { outcome := Except.error ("All tools failed. Last error: " ++ out1),
        statuses := [
          { name := "alpha", available := true, lastSuccess := none,
            lastFailed := some 1000000, responseTimeMs := none, failureCount := k + 1 }],
        invoked := ["alpha"] } := by
  have hpool : getOrderedToolPool cfgOne [alphaRecord k] cfgOne.failureCooldownMs 1000000 =
      [alphaRecord k] := by
    simp [getOrderedToolPool, cfgOne, poolEntry, statusMapGet, alphaRecord,
      stableSortLe, insertLe, freshToolStatus]
  rw [AICliAdapter.execute]
  simp only [hpool]
  simp [execLoop, adaptersHardFail, preferredSkip, List.lookup, jsOrError, h,
    markFailed, updateToolStatus, applyPatch, freshToolStatus, alphaRecord,
    allToolsFailedMsg]

/-- C3 witness: the hard-error scenario at the concrete non-quota
output "exploded" and prior failureCount 2. -/
theorem hard_error_no_failover_witness :
    isQuotaError "exploded" = false ∧
    AICliAdapter.execute cfgOne [alphaRecord 2] (adaptersHardFail "exploded") none 1000000 =
      { outcome := Except.error ("All tools failed. Last error: " ++ "exploded"),
        statuses := [
          { name := "alpha", available := true, lastSuccess := none,
            lastFailed := some 1000000, responseTimeMs := none, failureCount := 2 + 1 }],
        invoked := ["alpha"] } :=
  ⟨by decide, hard_error_no_failover "exploded" 2 (by decide)⟩

/-- C2 counterexample: a backend whose lastFailed is 1 second before
now, against failureCooldownMs = 300000, is NOT excluded from the
pool getOrderedToolPool returns — it is present (as the only entry)
with the selection-local available flag set to false. -/
theorem cooldown_not_excluded_counterexample :
    (getOrderedToolPool cfgOne [alphaFailedAt 999000] 300000 1000000).map ToolStatus.name
        = ["alpha"] ∧
    (getOrderedToolPool cfgOne [alphaFailedAt 999000] 300000 1000000).map ToolStatus.available
        = [false] := by
  decide

/-- C2 amended: an enabled backend is always kept in the selection
pool; when its lastFailed timestamp is strictly within
failureCooldownMs of now the fresh pool copy carries available=false
(ordering it after available backends), and otherwise the copy keeps
its persisted availability — the pool is recomputed from the
persisted records, which are not written. -/
theorem cooldown_marks_unavailable (lf cd now : Nat) (hlf : 0 < lf) :
    getOrderedToolPool cfgOne [alphaFailedAt lf] cd now =
      [{ name := "alpha", available := !decide (now - lf < cd), lastSuccess := none,
         lastFailed := some lf, responseTimeMs := none, failureCount := 1 }] := by
  by_cases hc : now - lf < cd <;>
    simp [getOrderedToolPool, cfgOne, poolEntry, statusMapGet, alphaFailedAt,
      stableSortLe, insertLe, freshToolStatus, hc, Nat.pos_iff_ne_zero.mp hlf]

/-- C2 amended witness: lastFailed 1 second before now with cooldown
300000 yields the in-pool entry with available=false; lastFailed 301
seconds before now yields it with available=true. -/
theorem cooldown_marks_unavailable_witness :
    getOrderedToolPool cfgOne [alphaFailedAt 999000] 300000 1000000 =
      [{ name := "alpha", available := false, lastSuccess := none,
         lastFailed := some 999000, responseTimeMs := none, failureCount := 1 }] ∧
    getOrderedToolPool cfgOne [alphaFailedAt 699000] 300000 1000000 =
      [{ name := "alpha", available := true, lastSuccess := none,
         lastFailed := some 699000, responseTimeMs := none, failureCount := 1 }] :=
  ⟨cooldown_marks_unavailable 999000 300000 1000000 (by decide),
   cooldown_marks_unavailable 699000 300000 1000000 (by decide)⟩

/-- setPhase only changes the acting thread's phase, not the shared
activeIds / maxConcurrent. -/
theorem setPhase_shared (s : SchedSys) (t : Bool) (p : PollPhase) :
    (s.setPhase t p).activeIds = s.activeIds ∧
    (s.setPhase t p).maxConcurrent = s.maxConcurrent := by
  cases t <;> simp [SchedSys.setPhase]

/-- Set.add grows the set by at most one element. -/
theorem addId_length_le (l : List String) (id : String) :
    (addId l id).length ≤ l.length + 1 := by
  unfold addId
  split
  · exact Nat.le_succ _
  · simp

/-- Every enabled scheduler step preserves maxConcurrent and the
budget bound on activeIds (the dispatch guard size < maxConcurrent is
re-checked before every add). -/
theorem schedStep_some (s s' : SchedSys) (a : SchedAction)
    (h : schedStep s a = some s') :
    s'.maxConcurrent = s.maxConcurrent ∧
    (s.activeIds.length ≤ s.maxConcurrent →
      s'.activeIds.length ≤ s.maxConcurrent) := by
  cases a with
  | fetch t =>
    rw [schedStep] at h
    split at h
    · rw [Option.some_inj] at h
      subst h
      simp [setPhase_shared]
    · exact absurd h (by simp)
  | dispatch t =>
    rw [schedStep] at h
    split at h
    · split at h
      · rw [Option.some_inj] at h
        subst h
        rename_i id rest hq hlt
        refine ⟨(setPhase_shared _ _ _).2, fun _ => ?_⟩
        rw [(setPhase_shared _ _ _).1]
        exact le_trans (addId_length_le _ _) hlt
      · exact absurd h (by simp)
    · exact absurd h (by simp)
  | budgetStop t =>
    rw [schedStep] at h
    split at h
    · split at h
      · exact absurd h (by simp)
      · rw [Option.some_inj] at h
        subst h
        simp [setPhase_shared]
    · exact absurd h (by simp)
  | completeHandler t =>
    rw [schedStep] at h
    split at h
    · rw [Option.some_inj] at h
      subst h
      refine ⟨(setPhase_shared _ _ _).2, fun hle => ?_⟩
      rw [(setPhase_shared _ _ _).1]
      exact le_trans (List.length_filter_le _ _) hle
    · exact absurd h (by simp)
  | finishPoll t =>
    rw [schedStep] at h
    split at h
    · rw [Option.some_inj] at h
      subst h
      simp [setPhase_shared]
    · exact absurd h (by simp)

/-- C9 counterexample: after thread 1 and thread 2 both fetch the
pending list and thread 1 dispatches X, item X is in activeIds with
thread 1's dispatch of it still running — yet thread 2's dispatch
step for the same X is enabled and fires (only the size budget is
checked; membership of the id in activeIds never is). -/
theorem duplicate_dispatch_counterexample :
    (runSched sysX overlapTrace).activeIds.contains "X" = true ∧
    (runSched sysX overlapTrace).thread1 = PollPhase.handling "X" [] ∧
    dispatchFires (runSched sysX overlapTrace) false "X" = true := by
  decide

/-- C9 amended: along every interleaving of the two poll threads the
shared activeIds set never exceeds the maxConcurrent budget — the
only guarantee the shared set enforces; it does not prevent the same
still-pending item from being dispatched concurrently by overlapping
polls. -/
theorem runSched_budget (acts : List SchedAction) (s : SchedSys)
    (h : s.activeIds.length ≤ s.maxConcurrent) :
    (runSched s acts).activeIds.length ≤ s.maxConcurrent := by
  induction acts generalizing s with
  | nil => exact h
  | cons a rest ih =>
    rcases hstep : schedStep s a with _ | s'
    · simpa [runSched, List.foldl_cons, hstep] using ih s h
    · have hs := schedStep_some s s' a hstep
      have hr := ih s' (hs.1 ▸ hs.2 h)
      rw [hs.1] at hr
      simpa [runSched, List.foldl_cons, hstep] using hr

/-- C9 amended witness: the budget bound along the concrete
overlapping trace from the initial state. -/
theorem runSched_budget_witness :
    sysX.activeIds.length ≤ sysX.maxConcurrent ∧
    (runSched sysX overlapTrace).activeIds.length ≤ sysX.maxConcurrent :=
  ⟨by decide, runSched_budget overlapTrace sysX (by decide)⟩

end AIWorker
